import Mathlib

/-!
Shallow embedding of the SmilePill pharmacy backend's storage layer
(`DatabaseStorage` over a relational schema) and of the category phase of its
catalog-seeding utility.

Tables are lists of row records; generated uuid primary keys are modelled by a
counter `nextId` in the database state; timestamps (`new Date()` /
`defaultNow()`) are an explicit `now : Nat` argument.  Nullable columns are
`Option`s.  Each storage method is a pure function from a database state (plus
its arguments and the clock) to the new state and its returned value; a method
whose SQL `UPDATE ... RETURNING` can match no row returns an `Option`, mirroring
the `const [x] = rows` destructuring that yields `undefined` on an empty result.
-/

/-- Row of the `users` table. -/
structure User where
  id : String
  username : Option String
  password : Option String
  email : Option String
  firstName : Option String
  lastName : Option String
  profileImageUrl : Option String
  stripeCustomerId : Option String
  stripeSubscriptionId : Option String
  isAdmin : Option Bool
  adminRole : Option String
  createdAt : Nat
  updatedAt : Nat
deriving DecidableEq

/-- Row of the `categories` table (`slug` carries a UNIQUE constraint). -/
structure Category where
  id : Nat
  name : String
  slug : String
  description : Option String
  createdAt : Nat
deriving DecidableEq

/-- Row of the `brands` table. -/
structure Brand where
  id : Nat
  name : String
  description : Option String
  createdAt : Nat
deriving DecidableEq

/-- Row of the `products` table (decimal columns are kept as strings, as the
ORM returns them). -/
structure Product where
  id : Nat
  name : String
  slug : String
  description : Option String
  shortDescription : Option String
  price : String
  originalPrice : Option String
  dosage : Option String
  categoryId : Option Nat
  brandId : Option Nat
  imageUrl : Option String
  stockQuantity : Option Int
  requiresPrescription : Option Bool
  isActive : Option Bool
  rating : Option String
  reviewCount : Option Int
  createdAt : Nat
  updatedAt : Nat
deriving DecidableEq

/-- Row of the `cart_items` table. -/
structure CartItem where
  id : Nat
  userId : String
  productId : Nat
  quantity : Int
  createdAt : Nat
  updatedAt : Nat
deriving DecidableEq

/-- Row of the `orders` table. -/
structure Order where
  id : Nat
  userId : String
  orderNumber : String
  status : String
  totalAmount : String
  shippingAddress : Option String
  billingAddress : Option String
  paymentStatus : Option String
  stripePaymentIntentId : Option String
  createdAt : Nat
  updatedAt : Nat
deriving DecidableEq

/-- Row of the `order_items` table. -/
structure OrderItem where
  id : Nat
  orderId : Nat
  productId : Nat
  quantity : Int
  price : String
  createdAt : Nat
deriving DecidableEq

/-- Row of the `admin_permissions` table. -/
structure AdminPermission where
  id : Nat
  userId : String
  permission : String
  createdAt : Nat
deriving DecidableEq

/-- The database state: one list per table the verified operations touch, plus
the generator for fresh primary keys. -/
structure DB where
  users : List User
  categories : List Category
  brands : List Brand
  products : List Product
  cartItems : List CartItem
  orders : List Order
  orderItems : List OrderItem
  adminPermissions : List AdminPermission
  nextId : Nat
deriving DecidableEq

/-- The empty database. -/
def DB.empty : DB :=
  ⟨[], [], [], [], [], [], [], [], 0⟩

/-- Every cart-item primary key is below the id generator: the freshness
guarantee the database's uuid generation provides. -/
def DB.cartIdsFresh (db : DB) : Prop :=
  ∀ ci ∈ db.cartItems, ci.id < db.nextId

instance (db : DB) : Decidable db.cartIdsFresh := by
  unfold DB.cartIdsFresh; infer_instance

/-- The row predicate of `addToCart`'s existence check and of
`updateCartItem`/`removeFromCart`'s WHERE clause:
`and(eq(cartItems.userId, userId), eq(cartItems.productId, productId))`. -/
def cartMatch (userId : String) (productId : Nat) (ci : CartItem) : Bool :=
  ci.userId == userId && ci.productId == productId

/-- `addToCart(userId, productId, quantity)`: select the row for
(userId, productId); if one exists, update it (by its id) to
`quantity := existing + requested` and refresh `updatedAt`; otherwise insert a
new row with the requested quantity.  Returns the new state and the row the
method returns. -/
def addToCart (db : DB) (userId : String) (productId : Nat) (quantity : Int)
    (now : Nat) : DB × CartItem :=
  match db.cartItems.find? (cartMatch userId productId) with
  | some existingItem =>
      let updatedItem : CartItem :=
        { existingItem with quantity := existingItem.quantity + quantity, updatedAt := now }
      ({ db with cartItems :=
            db.cartItems.map fun ci => if ci.id == existingItem.id then updatedItem else ci },
        updatedItem)
  | none =>
      let newItem : CartItem :=
        { id := db.nextId, userId := userId, productId := productId,
          quantity := quantity, createdAt := now, updatedAt := now }
      ({ db with cartItems := db.cartItems ++ [newItem], nextId := db.nextId + 1 }, newItem)

/-- `updateCartItem(userId, productId, quantity)`: one UPDATE setting
`quantity` to the absolute value and refreshing `updatedAt` on every row
matching (userId, productId); returns the first returned row, or `none` when
the WHERE clause matched nothing. -/
def updateCartItem (db : DB) (userId : String) (productId : Nat) (quantity : Int)
    (now : Nat) : DB × Option CartItem :=
  let upd : CartItem → CartItem := fun ci => { ci with quantity := quantity, updatedAt := now }
  ({ db with cartItems :=
        db.cartItems.map fun ci => if cartMatch userId productId ci then upd ci else ci },
    ((db.cartItems.filter (cartMatch userId productId)).head?).map upd)

/-- All cart rows of a state for one (user, product) pair. -/
def cartRowsFor (db : DB) (userId : String) (productId : Nat) : List CartItem :=
  db.cartItems.filter (cartMatch userId productId)

/-- The row predicate of the admin-permission WHERE clauses:
`and(eq(adminPermissions.userId, userId), eq(adminPermissions.permission, permission))`. -/
def permMatch (userId permission : String) (a : AdminPermission) : Bool :=
  a.userId == userId && a.permission == permission

/-- `addAdminPermission(userId, permission)`: insert a (user, permission) row
(no dedup check) and return it. -/
def addAdminPermission (db : DB) (userId permission : String) (now : Nat) :
    DB × AdminPermission :=
  let row : AdminPermission :=
    { id := db.nextId, userId := userId, permission := permission, createdAt := now }
  ({ db with adminPermissions := db.adminPermissions ++ [row], nextId := db.nextId + 1 },
   row)

/-- `removeAdminPermission(userId, permission)`: delete every row matching the
exact (user, permission) pair. -/
def removeAdminPermission (db : DB) (userId permission : String) : DB :=
  { db with adminPermissions :=
      db.adminPermissions.filter fun a => !(permMatch userId permission a) }

/-- `hasAdminPermission(userId, permission)`: true iff a row for the exact
(user, permission) pair exists (`findFirst` then `!!record`). -/
def hasAdminPermission (db : DB) (userId permission : String) : Bool :=
  (db.adminPermissions.find? (permMatch userId permission)).isSome

/-- `Partial<InsertProduct>`: the provided fields of a partial product update
(`none` = field not provided). -/
structure ProductUpdates where
  name : Option String := none
  slug : Option String := none
  description : Option String := none
  shortDescription : Option String := none
  price : Option String := none
  originalPrice : Option String := none
  dosage : Option String := none
  categoryId : Option Nat := none
  brandId : Option Nat := none
  imageUrl : Option String := none
  stockQuantity : Option Int := none
  requiresPrescription : Option Bool := none
  isActive : Option Bool := none
  rating : Option String := none
  reviewCount : Option Int := none
deriving DecidableEq

/-- The `{ ...updates, updatedAt: new Date() }` SET clause of `updateProduct`:
provided fields overwrite, the rest keep their stored value. -/
def applyProductUpdates (u : ProductUpdates) (now : Nat) (p : Product) : Product :=
  { p with
    name := u.name.getD p.name
    slug := u.slug.getD p.slug
    description := u.description.or p.description
    shortDescription := u.shortDescription.or p.shortDescription
    price := u.price.getD p.price
    originalPrice := u.originalPrice.or p.originalPrice
    dosage := u.dosage.or p.dosage
    categoryId := u.categoryId.or p.categoryId
    brandId := u.brandId.or p.brandId
    imageUrl := u.imageUrl.or p.imageUrl
    stockQuantity := u.stockQuantity.or p.stockQuantity
    requiresPrescription := u.requiresPrescription.or p.requiresPrescription
    isActive := u.isActive.or p.isActive
    rating := u.rating.or p.rating
    reviewCount := u.reviewCount.or p.reviewCount
    updatedAt := now }

/-- `updateProduct(id, updates)`: UPDATE by primary key applying the provided
fields and refreshing `updatedAt`; `none` when the id matches no row. -/
def updateProduct (db : DB) (id : Nat) (updates : ProductUpdates) (now : Nat) :
    DB × Option Product :=
  let upd : Product → Product := applyProductUpdates updates now
  ({ db with products := db.products.map fun p => if p.id == id then upd p else p },
    ((db.products.filter fun p => p.id == id).head?).map upd)

/-- `updateProductStock(id, quantity)`: sets stock to an absolute value and
refreshes `updatedAt`; `none` when the id matches no row. -/
def updateProductStock (db : DB) (id : Nat) (quantity : Int) (now : Nat) :
    DB × Option Product :=
  let upd : Product → Product := fun p =>
    { p with stockQuantity := some quantity, updatedAt := now }
  ({ db with products := db.products.map fun p => if p.id == id then upd p else p },
    ((db.products.filter fun p => p.id == id).head?).map upd)

/-- `updateOrderStatus(id, status, paymentStatus?)`: always sets `status` and
`updatedAt`; the `paymentStatus` column is added to the SET clause only when
the argument is truthy (`if (paymentStatus)`: absent and the empty string are
both falsy).  `none` when the id matches no row. -/
def updateOrderStatus (db : DB) (id : Nat) (status : String)
    (paymentStatus : Option String) (now : Nat) : DB × Option Order :=
  let upd : Order → Order := fun o =>
    let o1 := { o with status := status, updatedAt := now }
    match paymentStatus with
    | some ps => if ps == "" then o1 else { o1 with paymentStatus := some ps }
    | none => o1
  ({ db with orders := db.orders.map fun o => if o.id == id then upd o else o },
    ((db.orders.filter fun o => o.id == id).head?).map upd)

/-- `setUserAdmin(id, isAdmin, role?)`: one UPDATE built from
`set({ isAdmin, adminRole: role, updatedAt })`.  The ORM drops entries whose
value is `undefined` from the SET clause, so the `admin_role` column is
written only when a role is passed and keeps its stored value otherwise;
`none` when the id matches no row. -/
def setUserAdmin (db : DB) (id : String) (isAdmin : Bool) (role : Option String)
    (now : Nat) : DB × Option User :=
  let upd : User → User := fun u =>
    { u with isAdmin := some isAdmin, adminRole := role.or u.adminRole,
             updatedAt := now }
  ({ db with users := db.users.map fun u => if u.id == id then upd u else u },
    ((db.users.filter fun u => u.id == id).head?).map upd)

-- ### Helper lemmas about list updates

/-- A filter by a predicate false on every element is empty. -/
theorem filter_false_nil {α : Type} (p : α → Bool) (l : List α)
    (h : ∀ x ∈ l, p x = false) : l.filter p = [] := by
  induction l with
  | nil => rfl
  | cons x xs ih =>
      rw [List.filter_cons, h x (by simp)]
      exact ih fun y hy => h y (by simp [hy])

/-- `find?` skips a prefix in which it finds nothing. -/
theorem find?_append_none {α : Type} (p : α → Bool) (l1 l2 : List α)
    (h : l1.find? p = none) : (l1 ++ l2).find? p = l2.find? p := by
  induction l1 with
  | nil => simp
  | cons x xs ih =>
      cases hx : p x with
      | true => simp [List.find?_cons, hx] at h
      | false =>
          simp only [List.find?_cons, hx] at h
          simpa [List.find?_cons, hx] using ih h

/-- Mapping a conditional rewrite over rows none of which satisfy the
condition changes nothing. -/
theorem map_ite_eq_self {α : Type} (l : List α) (q : α → Bool) (f : α → α)
    (h : ∀ x ∈ l, q x = false) :
    (l.map fun x => if q x then f x else x) = l := by
  induction l with
  | nil => rfl
  | cons x xs ih =>
      have hx := h x (by simp)
      simp only [List.map_cons, hx, if_false, List.cons.injEq]
      exact ⟨rfl, ih fun y hy => h y (by simp [hy])⟩

/-- C1: starting from a state with no cart row for (u, p), `addToCart`
inserts a new row holding the requested quantity, and a second `addToCart`
for the same pair increments that row in place: afterwards exactly one row
for (u, p) exists and its quantity is q1 + q2. -/
theorem addToCart_accumulates (db : DB) (u : String) (p : Nat) (q1 q2 : Int)
    (t1 t2 : Nat) (hfresh : db.cartIdsFresh) (h0 : cartRowsFor db u p = []) :
    (addToCart db u p q1 t1).2.quantity = q1
    ∧ (addToCart db u p q1 t1).1.cartItems = db.cartItems ++ [(addToCart db u p q1 t1).2]
    ∧ cartRowsFor (addToCart (addToCart db u p q1 t1).1 u p q2 t2).1 u p
        = [(addToCart (addToCart db u p q1 t1).1 u p q2 t2).2]
    ∧ (addToCart (addToCart db u p q1 t1).1 u p q2 t2).2.quantity = q1 + q2 := by
  have hmatch : ∀ ci ∈ db.cartItems, cartMatch u p ci = false := by
    intro ci hci
    by_contra hc
    have hmem : ci ∈ cartRowsFor db u p :=
      List.mem_filter.mpr ⟨hci, by simpa using hc⟩
    rw [h0] at hmem
    exact absurd hmem (List.not_mem_nil ci)
  have hfind : db.cartItems.find? (cartMatch u p) = none := by
    apply List.find?_eq_none.mpr
    intro x hx
    simp [hmatch x hx]
  have h1 : addToCart db u p q1 t1
      = ({ db with
            cartItems := db.cartItems ++
              [⟨db.nextId, u, p, q1, t1, t1⟩],
            nextId := db.nextId + 1 },
         (⟨db.nextId, u, p, q1, t1, t1⟩ : CartItem)) := by
    simp only [addToCart, hfind]
  have hfind2 : (db.cartItems ++ [(⟨db.nextId, u, p, q1, t1, t1⟩ : CartItem)]).find?
      (cartMatch u p) = some ⟨db.nextId, u, p, q1, t1, t1⟩ := by
    rw [find?_append_none _ _ _ hfind]
    simp [List.find?_cons, cartMatch]
  have h2 : addToCart (addToCart db u p q1 t1).1 u p q2 t2
      = ({ db with
            cartItems := (db.cartItems ++ [(⟨db.nextId, u, p, q1, t1, t1⟩ : CartItem)]).map
              (fun ci => if ci.id == db.nextId then ⟨db.nextId, u, p, q1 + q2, t1, t2⟩ else ci),
            nextId := db.nextId + 1 },
         (⟨db.nextId, u, p, q1 + q2, t1, t2⟩ : CartItem)) := by
    rw [h1]
    simp only [addToCart, hfind2]
  have hid : ∀ ci ∈ db.cartItems, (ci.id == db.nextId) = false := by
    intro ci hci
    have := hfresh ci hci
    simp [Nat.ne_of_lt this]
  have hprefix : db.cartItems.map
      (fun ci => if ci.id == db.nextId then (⟨db.nextId, u, p, q1 + q2, t1, t2⟩ : CartItem) else ci)
      = db.cartItems := map_ite_eq_self _ _ _ hid
  refine ⟨by rw [h1], by rw [h1], ?_, by rw [h2]⟩
  rw [h2]
  unfold cartRowsFor
  simp only [List.map_append, hprefix, List.map_cons, List.map_nil]
  rw [List.filter_append]
  have hnil : db.cartItems.filter (cartMatch u p) = [] := h0
  rw [hnil]
  simp [cartMatch]

/-- Witness for C1 at a concrete input: two adds of 2 then 3 for user "u",
product 1, on the empty database. -/
theorem addToCart_accumulates_witness :
    cartRowsFor (addToCart (addToCart DB.empty "u" 1 2 0).1 "u" 1 3 1).1 "u" 1
      = [(addToCart (addToCart DB.empty "u" 1 2 0).1 "u" 1 3 1).2]
    ∧ (addToCart (addToCart DB.empty "u" 1 2 0).1 "u" 1 3 1).2.quantity = 2 + 3 :=
  ⟨(addToCart_accumulates DB.empty "u" 1 2 3 0 1 (by decide) (by decide)).2.2.1,
   (addToCart_accumulates DB.empty "u" 1 2 3 0 1 (by decide) (by decide)).2.2.2⟩

/-- C4: `updateCartItem` sets the quantity of the (u, p) row to the absolute
value q, replacing the previous quantity: after `addToCart u p q0` followed by
`updateCartItem u p q`, the one (u, p) row holds q (not q0 + q), and the
returned row holds q. -/
theorem updateCartItem_replaces (db : DB) (u : String) (p : Nat) (q0 q : Int)
    (t1 t2 : Nat) (h0 : cartRowsFor db u p = []) :
    (cartRowsFor (updateCartItem (addToCart db u p q0 t1).1 u p q t2).1 u p).map
        CartItem.quantity = [q]
    ∧ ((updateCartItem (addToCart db u p q0 t1).1 u p q t2).2).map
        CartItem.quantity = some q := by
  have hmatch : ∀ ci ∈ db.cartItems, cartMatch u p ci = false := by
    intro ci hci
    by_contra hc
    have hmem : ci ∈ cartRowsFor db u p :=
      List.mem_filter.mpr ⟨hci, by simpa using hc⟩
    rw [h0] at hmem
    exact absurd hmem (List.not_mem_nil ci)
  have hfind : db.cartItems.find? (cartMatch u p) = none := by
    apply List.find?_eq_none.mpr
    intro x hx
    simp [hmatch x hx]
  have h1 : addToCart db u p q0 t1
      = ({ db with
            cartItems := db.cartItems ++ [⟨db.nextId, u, p, q0, t1, t1⟩],
            nextId := db.nextId + 1 },
         (⟨db.nextId, u, p, q0, t1, t1⟩ : CartItem)) := by
    simp only [addToCart, hfind]
  have hprefix : db.cartItems.map
      (fun ci => if cartMatch u p ci then
        ({ ci with quantity := q, updatedAt := t2 } : CartItem) else ci)
      = db.cartItems := map_ite_eq_self _ _ _ hmatch
  have hnil : db.cartItems.filter (cartMatch u p) = [] := h0
  rw [h1]
  unfold updateCartItem
  constructor
  · unfold cartRowsFor
    simp only [List.map_append, hprefix, List.map_cons, List.map_nil]
    rw [List.filter_append, hnil]
    simp [cartMatch]
  · simp only [List.filter_append, hnil]
    simp [cartMatch]

/-- Witness for C4 at a concrete input: add 3, then update to 7, for user "u",
product 1, on the empty database. -/
theorem updateCartItem_replaces_witness :
    (cartRowsFor (updateCartItem (addToCart DB.empty "u" 1 3 0).1 "u" 1 7 1).1 "u" 1).map
        CartItem.quantity = [7]
    ∧ ((updateCartItem (addToCart DB.empty "u" 1 3 0).1 "u" 1 7 1).2).map
        CartItem.quantity = some 7 :=
  updateCartItem_replaces DB.empty "u" 1 3 7 0 1 (by decide)

/-- C6: `hasAdminPermission(u, s)` is true immediately after
`addAdminPermission(u, s)`, false immediately after
`removeAdminPermission(u, s)`, and in general holds iff an AdminPermission row
for the exact (u, s) pair exists. -/
theorem adminPermission_add_remove_has (db : DB) (u s : String) (t : Nat) :
    hasAdminPermission (addAdminPermission db u s t).1 u s = true
    ∧ hasAdminPermission (removeAdminPermission db u s) u s = false
    ∧ (hasAdminPermission db u s = true
        ↔ ∃ a ∈ db.adminPermissions, a.userId = u ∧ a.permission = s) := by
  refine ⟨?_, ?_, ?_⟩
  · unfold hasAdminPermission addAdminPermission
    rw [List.find?_isSome]
    refine ⟨{ id := db.nextId, userId := u, permission := s, createdAt := t },
      by simp, by simp [permMatch]⟩
  · unfold hasAdminPermission removeAdminPermission
    have hnone : (db.adminPermissions.filter fun a => !(permMatch u s a)).find?
        (permMatch u s) = none := by
      apply List.find?_eq_none.mpr
      intro x hx
      have hx2 := (List.mem_filter.mp hx).2
      simp only [Bool.not_eq_true'] at hx2
      simp [hx2]
    simp [hnone]
  · unfold hasAdminPermission
    rw [List.find?_isSome]
    constructor
    · rintro ⟨a, ha, hm⟩
      exact ⟨a, ha, by simpa [permMatch] using hm⟩
    · rintro ⟨a, ha, h1, h2⟩
      exact ⟨a, ha, by simp [permMatch, h1, h2]⟩

/-- A concrete user holding a stored admin role, for witnesses. -/
def userEx : User :=
  { id := "u1", username := some "alice", password := none, email := none,
    firstName := none, lastName := none, profileImageUrl := none,
    stripeCustomerId := none, stripeSubscriptionId := none,
    isAdmin := some true, adminRole := some "super_admin",
    createdAt := 0, updatedAt := 0 }

/-- A one-user database, for witnesses. -/
def dbUserEx : DB := { DB.empty with users := [userEx] }

/-- C8 fails on the code: `setUserAdmin("u1", true)` called without a role
leaves the stored role "super_admin" in place — the SET clause omits the
absent `adminRole` value — so the field is not written as absent. -/
theorem setUserAdmin_keeps_role_counterexample :
    (((setUserAdmin dbUserEx "u1" true none 5).1).users.get
        ⟨0, by decide⟩).adminRole = some "super_admin"
    ∧ ¬(((setUserAdmin dbUserEx "u1" true none 5).1).users.get
        ⟨0, by decide⟩).adminRole = none := by
  refine ⟨by decide, by decide⟩

/-- C8 amended: `setUserAdmin(id, isAdmin)` called without a role leaves the
previously stored `adminRole` unchanged (the SET clause drops the absent
value), and overwrites it when a role is passed, while setting the admin flag
and refreshing the update timestamp; rows with a different id are
untouched. -/
theorem setUserAdmin_role_frame (db : DB) (id : String) (b : Bool)
    (role : Option String) (t i : Nat) (h : i < db.users.length)
    (h2 : i < ((setUserAdmin db id b role t).1).users.length) :
    ((db.users.get ⟨i, h⟩).id = id →
      (((setUserAdmin db id b role t).1).users.get ⟨i, h2⟩).adminRole
        = role.or (db.users.get ⟨i, h⟩).adminRole
      ∧ (((setUserAdmin db id b role t).1).users.get ⟨i, h2⟩).isAdmin = some b
      ∧ (((setUserAdmin db id b role t).1).users.get ⟨i, h2⟩).updatedAt = t)
    ∧ ((db.users.get ⟨i, h⟩).id ≠ id →
      ((setUserAdmin db id b role t).1).users.get ⟨i, h2⟩ = db.users.get ⟨i, h⟩) := by
  unfold setUserAdmin
  simp only [List.get_eq_getElem, List.getElem_map]
  by_cases hc : (db.users[i]).id = id
  · simp [hc]
  · simp [hc]

/-- Witness for the amended C8: without a role the stored "super_admin"
stays; the flag and timestamp are written. -/
theorem setUserAdmin_role_frame_witness :
    (((setUserAdmin dbUserEx "u1" true none 5).1).users.get
        ⟨0, by decide⟩).adminRole = some "super_admin"
    ∧ (((setUserAdmin dbUserEx "u1" true none 5).1).users.get
        ⟨0, by decide⟩).isAdmin = some true
    ∧ (((setUserAdmin dbUserEx "u1" true none 5).1).users.get
        ⟨0, by decide⟩).updatedAt = 5 := by
  have h := (setUserAdmin_role_frame dbUserEx "u1" true none 5 0
    (by decide) (by decide)).1 (by decide)
  exact ⟨h.1.trans (by decide), h.2.1, h.2.2⟩

/-- A concrete order with stored payment status "pending", for witnesses. -/
def orderEx : Order :=
  { id := 1, userId := "u1", orderNumber := "SP-1001", status := "pending",
    totalAmount := "19.99", shippingAddress := none, billingAddress := none,
    paymentStatus := some "pending", stripePaymentIntentId := none,
    createdAt := 0, updatedAt := 0 }

/-- A one-order database, for witnesses. -/
def dbOrderEx : DB := { DB.empty with orders := [orderEx], nextId := 2 }

/-- C9: `updateOrderStatus(id, status, paymentStatus?)` always writes the
status and the update timestamp of the matching row; the stored payment status
is overwritten only when the argument is passed (a non-empty string) and is
left unchanged when it is absent; every other column of the order, and every
other row, is unchanged. -/
theorem updateOrderStatus_frame (db : DB) (oid : Nat) (st : String)
    (ps : Option String) (t i : Nat) (h : i < db.orders.length)
    (h2 : i < ((updateOrderStatus db oid st ps t).1).orders.length) :
    ((db.orders.get ⟨i, h⟩).id = oid →
      (((updateOrderStatus db oid st ps t).1).orders.get ⟨i, h2⟩).status = st
      ∧ (((updateOrderStatus db oid st ps t).1).orders.get ⟨i, h2⟩).updatedAt = t
      ∧ (ps = none →
          (((updateOrderStatus db oid st ps t).1).orders.get ⟨i, h2⟩).paymentStatus
            = (db.orders.get ⟨i, h⟩).paymentStatus)
      ∧ (∀ s, ps = some s → s ≠ "" →
          (((updateOrderStatus db oid st ps t).1).orders.get ⟨i, h2⟩).paymentStatus
            = some s)
      ∧ (((updateOrderStatus db oid st ps t).1).orders.get ⟨i, h2⟩).id
          = (db.orders.get ⟨i, h⟩).id
      ∧ (((updateOrderStatus db oid st ps t).1).orders.get ⟨i, h2⟩).userId
          = (db.orders.get ⟨i, h⟩).userId
      ∧ (((updateOrderStatus db oid st ps t).1).orders.get ⟨i, h2⟩).orderNumber
          = (db.orders.get ⟨i, h⟩).orderNumber
      ∧ (((updateOrderStatus db oid st ps t).1).orders.get ⟨i, h2⟩).totalAmount
          = (db.orders.get ⟨i, h⟩).totalAmount
      ∧ (((updateOrderStatus db oid st ps t).1).orders.get ⟨i, h2⟩).shippingAddress
          = (db.orders.get ⟨i, h⟩).shippingAddress
      ∧ (((updateOrderStatus db oid st ps t).1).orders.get ⟨i, h2⟩).billingAddress
          = (db.orders.get ⟨i, h⟩).billingAddress
      ∧ (((updateOrderStatus db oid st ps t).1).orders.get ⟨i, h2⟩).stripePaymentIntentId
          = (db.orders.get ⟨i, h⟩).stripePaymentIntentId
      ∧ (((updateOrderStatus db oid st ps t).1).orders.get ⟨i, h2⟩).createdAt
          = (db.orders.get ⟨i, h⟩).createdAt)
    ∧ ((db.orders.get ⟨i, h⟩).id ≠ oid →
      ((updateOrderStatus db oid st ps t).1).orders.get ⟨i, h2⟩
        = db.orders.get ⟨i, h⟩) := by
  unfold updateOrderStatus
  simp only [List.get_eq_getElem, List.getElem_map]
  by_cases hc : (db.orders[i]).id = oid
  · refine ⟨fun _ => ?_, fun hne => absurd hc hne⟩
    cases ps with
    | none => simp [hc]
    | some s =>
        by_cases hs : s = ""
        · subst hs; simp [hc]
        · have : (s == "") = false := by simpa using hs
          refine ⟨?_, ?_, by simp, fun s2 hs2 _ => ?_, ?_, ?_, ?_, ?_, ?_, ?_, ?_, ?_⟩
            <;> simp_all [hc]
  · simp [hc]

/-- Witness for C9: passing payment status "paid" overwrites the stored
"pending"; the order number is untouched. -/
theorem updateOrderStatus_frame_witness :
    (((updateOrderStatus dbOrderEx 1 "shipped" (some "paid") 9).1).orders.get
        ⟨0, by decide⟩).status = "shipped"
    ∧ (((updateOrderStatus dbOrderEx 1 "shipped" (some "paid") 9).1).orders.get
        ⟨0, by decide⟩).paymentStatus = some "paid"
    ∧ (((updateOrderStatus dbOrderEx 1 "shipped" (some "paid") 9).1).orders.get
        ⟨0, by decide⟩).orderNumber = "SP-1001" := by
  have h := (updateOrderStatus_frame dbOrderEx 1 "shipped" (some "paid") 9 0
    (by decide) (by decide)).1 (by decide)
  exact ⟨h.1, h.2.2.2.1 "paid" rfl (by decide), h.2.2.2.2.2.2.1⟩

/-- C10: every update-by-key operation (`updateCartItem`, `updateProduct`,
`updateProductStock`, `updateOrderStatus`) called with a key matching no row
completes without an error, returns an absent value instead of an entity, and
leaves the database unchanged. -/
theorem update_missing_key_noop (db : DB) (u : String) (p pid oid : Nat)
    (q sq : Int) (upds : ProductUpdates) (st : String) (ps : Option String)
    (t : Nat)
    (hc : ∀ ci ∈ db.cartItems, cartMatch u p ci = false)
    (hp : ∀ pr ∈ db.products, pr.id ≠ pid)
    (ho : ∀ o ∈ db.orders, o.id ≠ oid) :
    updateCartItem db u p q t = (db, none)
    ∧ updateProduct db pid upds t = (db, none)
    ∧ updateProductStock db pid sq t = (db, none)
    ∧ updateOrderStatus db oid st ps t = (db, none) := by
  have hpB : ∀ pr ∈ db.products, (pr.id == pid) = false := by
    intro pr hpr; simpa using hp pr hpr
  have hoB : ∀ o ∈ db.orders, (o.id == oid) = false := by
    intro o hor; simpa using ho o hor
  refine ⟨?_, ?_, ?_, ?_⟩
  · unfold updateCartItem
    have h1 := map_ite_eq_self db.cartItems (cartMatch u p)
      (fun ci => { ci with quantity := q, updatedAt := t }) hc
    have h2 := filter_false_nil (cartMatch u p) db.cartItems hc
    simp only [h1, h2, List.head?_nil, Option.map_none']
  · unfold updateProduct
    have h1 := map_ite_eq_self db.products (fun pr => pr.id == pid)
      (applyProductUpdates upds t) hpB
    have h2 := filter_false_nil (fun pr => pr.id == pid) db.products hpB
    simp only [h1, h2, List.head?_nil, Option.map_none']
  · unfold updateProductStock
    have h1 := map_ite_eq_self db.products (fun pr => pr.id == pid)
      (fun pr => { pr with stockQuantity := some sq, updatedAt := t }) hpB
    have h2 := filter_false_nil (fun pr => pr.id == pid) db.products hpB
    simp only [h1, h2, List.head?_nil, Option.map_none']
  · unfold updateOrderStatus
    have h1 := map_ite_eq_self db.orders (fun o => o.id == oid)
      (fun o =>
        let o1 : Order := { o with status := st, updatedAt := t }
        match ps with
        | some s => if s == "" then o1 else { o1 with paymentStatus := some s }
        | none => o1) hoB
    have h2 := filter_false_nil (fun o => o.id == oid) db.orders hoB
    simp only [h1, h2, List.head?_nil, Option.map_none']

/-- Witness for C10: on the empty database every update-by-key operation
returns `none` and changes nothing. -/
theorem update_missing_key_noop_witness :
    updateCartItem DB.empty "u" 1 4 0 = (DB.empty, none)
    ∧ updateProduct DB.empty 1 {} 0 = (DB.empty, none)
    ∧ updateProductStock DB.empty 1 5 0 = (DB.empty, none)
    ∧ updateOrderStatus DB.empty 1 "shipped" none 0 = (DB.empty, none) :=
  update_missing_key_noop DB.empty "u" 1 1 1 4 5 {} "shipped" none 0
    (by decide) (by decide) (by decide)

/-- An order item joined with its product, as the composite order responses
carry it. -/
structure EnrichedOrderItem where
  item : OrderItem
  product : Product
deriving DecidableEq

/-- `OrderWithItems`: an order with its grouped, enriched item list. -/
structure OrderWithItems where
  order : Order
  orderItems : List EnrichedOrderItem
deriving DecidableEq

/-- The filter object `getProducts` accepts (all fields optional). -/
structure ProductFilters where
  categoryId : Option Nat := none
  brandId : Option Nat := none
  search : Option String := none
  minPrice : Option Int := none
  maxPrice : Option Int := none
  inStock : Option Bool := none
  limit : Option Nat := none
  offset : Option Nat := none
deriving DecidableEq

/-- A product with its left-joined category and brand (absent when the join
found no row). -/
structure ProductWithRelations where
  product : Product
  category : Option Category
  brand : Option Brand
deriving DecidableEq

/-- Insert into a list kept in descending key order (stable: equal keys keep
the existing element first). -/
def insertDesc {α : Type} (key : α → Nat) (x : α) : List α → List α
  | [] => [x]
  | y :: ys => if key y < key x then x :: y :: ys else y :: insertDesc key x ys

/-- `ORDER BY key DESC` as an insertion sort. -/
def sortDesc {α : Type} (key : α → Nat) : List α → List α
  | [] => []
  | x :: xs => insertDesc key x (sortDesc key xs)

theorem mem_insertDesc {α : Type} (key : α → Nat) (x a : α) (l : List α) :
    a ∈ insertDesc key x l ↔ a = x ∨ a ∈ l := by
  induction l with
  | nil => simp [insertDesc]
  | cons y ys ih =>
      unfold insertDesc
      by_cases hk : key y < key x
      · simp [hk]
      · simp [hk, ih]
        tauto

theorem mem_sortDesc {α : Type} (key : α → Nat) (a : α) (l : List α) :
    a ∈ sortDesc key l ↔ a ∈ l := by
  induction l with
  | nil => simp [sortDesc]
  | cons x xs ih =>
      unfold sortDesc
      rw [mem_insertDesc, ih]
      simp

theorem pairwise_insertDesc {α : Type} (key : α → Nat) (x : α) (l : List α)
    (h : l.Pairwise fun a b => key b ≤ key a) :
    (insertDesc key x l).Pairwise fun a b => key b ≤ key a := by
  induction l with
  | nil => simp [insertDesc]
  | cons y ys ih =>
      unfold insertDesc
      rw [List.pairwise_cons] at h
      by_cases hk : key y < key x
      · rw [if_pos hk]
        refine List.Pairwise.cons ?_ (List.Pairwise.cons h.1 h.2)
        intro z hz
        rcases List.mem_cons.mp hz with hz | hz
        · subst hz; exact Nat.le_of_lt hk
        · exact Nat.le_trans (h.1 z hz) (Nat.le_of_lt hk)
      · rw [if_neg hk]
        refine List.Pairwise.cons ?_ (ih h.2)
        intro z hz
        rcases (mem_insertDesc key x z ys).mp hz with hz | hz
        · subst hz; exact Nat.le_of_not_lt hk
        · exact h.1 z hz

theorem pairwise_sortDesc {α : Type} (key : α → Nat) (l : List α) :
    (sortDesc key l).Pairwise fun a b => key b ≤ key a := by
  induction l with
  | nil => simp [sortDesc]
  | cons x xs ih => exact pairwise_insertDesc key x (sortDesc key xs) ih

/-- `getProducts(filters)`: SELECT with left joins to categories and brands,
WHERE `isActive = true`, ORDER BY `createdAt` DESC.  The filter object is
accepted but its fields are not used in the query. -/
def getProducts (db : DB) (filters : ProductFilters) : List ProductWithRelations :=
  (sortDesc Product.createdAt (db.products.filter fun p => p.isActive == some true)).map
    fun p =>
      { product := p
        category := db.categories.find? fun c => p.categoryId == some c.id
        brand := db.brands.find? fun b => p.brandId == some b.id }

/-- C3: `getProducts` returns exactly the active products — a product with
`isActive = false` never appears — each enriched via left join with the
category and brand its foreign keys reference (absent when the key is null),
ordered newest-first by creation time; the filter fields have no effect on
the result. -/
theorem getProducts_spec (db : DB) (f1 f2 : ProductFilters) :
    getProducts db f1 = getProducts db f2
    ∧ (∀ pw ∈ getProducts db f1,
        pw.product ∈ db.products
        ∧ pw.product.isActive = some true
        ∧ (pw.product.categoryId = none → pw.category = none)
        ∧ (∀ c, pw.category = some c →
            c ∈ db.categories ∧ pw.product.categoryId = some c.id)
        ∧ ((∃ c ∈ db.categories, pw.product.categoryId = some c.id) →
            pw.category.isSome)
        ∧ (pw.product.brandId = none → pw.brand = none)
        ∧ (∀ b, pw.brand = some b →
            b ∈ db.brands ∧ pw.product.brandId = some b.id)
        ∧ ((∃ b ∈ db.brands, pw.product.brandId = some b.id) → pw.brand.isSome))
    ∧ (∀ p ∈ db.products, p.isActive = some true →
        ∃ pw ∈ getProducts db f1, pw.product = p)
    ∧ (∀ pw ∈ getProducts db f1, pw.product.isActive ≠ some false)
    ∧ (getProducts db f1).Pairwise
        (fun a b => b.product.createdAt ≤ a.product.createdAt) := by
  have hmem : ∀ pw ∈ getProducts db f1,
      pw.product ∈ db.products ∧ pw.product.isActive = some true := by
    intro pw hpw
    obtain ⟨p, hp, rfl⟩ := List.mem_map.mp hpw
    have hp2 := (mem_sortDesc Product.createdAt p _).mp hp
    have hp3 := List.mem_filter.mp hp2
    exact ⟨hp3.1, by simpa using hp3.2⟩
  refine ⟨rfl, ?_, ?_, ?_, ?_⟩
  · intro pw hpw
    obtain ⟨p, hp, rfl⟩ := List.mem_map.mp hpw
    have hp2 := (mem_sortDesc Product.createdAt p _).mp hp
    have hp3 := List.mem_filter.mp hp2
    refine ⟨hp3.1, by simpa using hp3.2, ?_, ?_, ?_, ?_, ?_, ?_⟩
    · intro hnone
      have hn : p.categoryId = none := hnone
      apply List.find?_eq_none.mpr
      intro c _
      simp [hn]
    · intro c hc
      have h1 := List.find?_some hc
      have h2 := List.mem_of_find?_eq_some hc
      exact ⟨h2, by simpa using h1⟩
    · rintro ⟨c, hc, hcid⟩
      have hc2 : p.categoryId = some c.id := hcid
      apply List.find?_isSome.mpr
      exact ⟨c, hc, by simp [hc2]⟩
    · intro hnone
      have hn : p.brandId = none := hnone
      apply List.find?_eq_none.mpr
      intro b _
      simp [hn]
    · intro b hb
      have h1 := List.find?_some hb
      have h2 := List.mem_of_find?_eq_some hb
      exact ⟨h2, by simpa using h1⟩
    · rintro ⟨b, hb, hbid⟩
      have hb2 : p.brandId = some b.id := hbid
      apply List.find?_isSome.mpr
      exact ⟨b, hb, by simp [hb2]⟩
  · intro p hp hact
    refine ⟨_, List.mem_map.mpr ⟨p, ?_, rfl⟩, rfl⟩
    exact (mem_sortDesc Product.createdAt p _).mpr
      (List.mem_filter.mpr ⟨hp, by simp [hact]⟩)
  · intro pw hpw
    have := (hmem pw hpw).2
    simp [this]
  · unfold getProducts
    rw [List.pairwise_map]
    exact pairwise_sortDesc Product.createdAt _

/-- `InsertCategory`: the caller-supplied category columns. -/
structure InsertCategory where
  name : String
  slug : String
  description : Option String := none
deriving DecidableEq

/-- `createCategory(category)`: INSERT into `categories`; the UNIQUE
constraint on `slug` rejects a duplicate slug, which raises a database error
(`none`) and leaves the state unchanged. -/
def createCategory (db : DB) (c : InsertCategory) (now : Nat) :
    DB × Option Category :=
  if db.categories.any fun c0 => c0.slug == c.slug then (db, none)
  else
    let row : Category :=
      { id := db.nextId, name := c.name, slug := c.slug,
        description := c.description, createdAt := now }
    ({ db with categories := db.categories ++ [row], nextId := db.nextId + 1 },
      some row)

/-- The fixed category definitions `seedAuthenticCatalog` creates. -/
def categoriesData : List InsertCategory :=
  [ { name := "Vitamins & Multivitamins", slug := "vitamins-multivitamins",
      description := some "Essential vitamins and multivitamin supplements for daily health" },
    { name := "Probiotics & Digestive Health", slug := "probiotics-digestive-health",
      description := some "Probiotic supplements and digestive health products" },
    { name := "Dietary Supplements", slug := "dietary-supplements",
      description := some "General dietary and nutritional supplements" },
    { name := "Joint, Bone & Muscle Support", slug := "joint-bone-muscle-support",
      description := some "Supplements for joint, bone and muscle health" },
    { name := "Hair, Skin & Nails", slug := "hair-skin-nails",
      description := some "Beauty supplements for hair, skin and nail health" },
    { name := "Pain Relief", slug := "pain-relief",
      description := some "Over-the-counter pain relief medications" },
    { name := "Cold, Cough & Allergy", slug := "cold-cough-allergy",
      description := some "Cold, cough and allergy relief medications" },
    { name := "Urinary Health & Cranberry", slug := "urinary-health-cranberry",
      description := some "Urinary tract health and cranberry supplements" },
    { name := "Skin Care & Acne", slug := "skin-care-acne",
      description := some "Topical skin care and acne treatment products" },
    { name := "Women\x27s Health & Feminine Care", slug := "womens-health-feminine-care",
      description := some "Women\x27s health and feminine care products" },
    { name := "First Aid & Wound Care", slug := "first-aid-wound-care",
      description := some "First aid supplies and wound care products" },
    { name := "Digestive & Antacid", slug := "digestive-antacid",
      description := some "Digestive aids and antacid medications" },
    { name := "Heart Health & CoQ10", slug := "heart-health-coq10",
      description := some "Heart health supplements including CoQ10" },
    { name := "Oral Care", slug := "oral-care",
      description := some "Oral and dental care products" },
    { name := "Minerals & Trace Elements", slug := "minerals-trace-elements",
      description := some "Important minerals and trace elements for optimal body function" },
    { name := "Herbal & Natural Supplements", slug := "herbal-natural-supplements",
      description := some "Natural herbal supplements and botanical extracts" },
    { name := "General Health", slug := "general-health",
      description := some "General health and wellness products" } ]

/-- The sequential `for ... await storage.createCategory(...)` loop: each
definition is inserted unconditionally, in order; a raised constraint
violation aborts the loop (`false`), keeping the rows created so far. -/
def seedCategoriesLoop (db : DB) (defs : List InsertCategory) (now : Nat) :
    DB × Bool :=
  match defs with
  | [] => (db, true)
  | d :: rest =>
      match createCategory db d now with
      | (db', some _) => seedCategoriesLoop db' rest now
      | (db', none) => (db', false)

/-- The category-creation phase of `seedAuthenticCatalog`: the fixed list of
category definitions is created unconditionally, with no idempotence guard.
This phase runs first; the brand and product phases that follow never write
the `categories` table. -/
def seedAuthenticCatalogCategories (db : DB) (now : Nat) : DB × Bool :=
  seedCategoriesLoop db categoriesData now

/-- The loop only appends to the categories table. -/
theorem seedCategoriesLoop_categories_prefix (defs : List InsertCategory)
    (db : DB) (now : Nat) :
    ∃ l, (seedCategoriesLoop db defs now).1.categories = db.categories ++ l := by
  induction defs generalizing db with
  | nil => exact ⟨[], by simp [seedCategoriesLoop]⟩
  | cons d rest ih =>
      unfold seedCategoriesLoop createCategory
      by_cases hany : (db.categories.any fun c0 => c0.slug == d.slug) = true
      · rw [if_pos hany]
        exact ⟨[], by simp⟩
      · rw [if_neg hany]
        obtain ⟨l2, hl2⟩ := ih { db with
          categories := db.categories ++
            [{ id := db.nextId, name := d.name, slug := d.slug,
               description := d.description, createdAt := now }],
          nextId := db.nextId + 1 }
        exact ⟨_, by rw [hl2, List.append_assoc]⟩

/-- A run whose head insert hits an existing slug fails at once, changing
nothing. -/
theorem seedCategoriesLoop_head_conflict {db : DB} {d : InsertCategory}
    {rest : List InsertCategory} {now : Nat}
    (hany : (db.categories.any fun c0 => c0.slug == d.slug) = true) :
    seedCategoriesLoop db (d :: rest) now = (db, false) := by
  have hcc : createCategory db d now = (db, none) := by
    unfold createCategory; rw [if_pos hany]
  simp only [seedCategoriesLoop, hcc]

/-- A successful run leaves a row with the head definition's slug behind. -/
theorem seedCategoriesLoop_head_ok {db : DB} {d : InsertCategory}
    {rest : List InsertCategory} {now : Nat}
    (h : (seedCategoriesLoop db (d :: rest) now).2 = true) :
    ∃ c ∈ (seedCategoriesLoop db (d :: rest) now).1.categories,
      c.slug = d.slug := by
  by_cases hany : (db.categories.any fun c0 => c0.slug == d.slug) = true
  · rw [seedCategoriesLoop_head_conflict hany] at h
    simp at h
  · have hcc : createCategory db d now
        = ({ db with
              categories := db.categories ++
                [{ id := db.nextId, name := d.name, slug := d.slug,
                   description := d.description, createdAt := now }],
              nextId := db.nextId + 1 },
            some { id := db.nextId, name := d.name, slug := d.slug,
                   description := d.description, createdAt := now }) := by
      unfold createCategory; rw [if_neg hany]
    have hstep : seedCategoriesLoop db (d :: rest) now
        = seedCategoriesLoop { db with
            categories := db.categories ++
              [{ id := db.nextId, name := d.name, slug := d.slug,
                 description := d.description, createdAt := now }],
            nextId := db.nextId + 1 } rest now := by
      simp only [seedCategoriesLoop, hcc]
    rw [hstep]
    obtain ⟨l, hl⟩ := seedCategoriesLoop_categories_prefix rest _ now
    refine ⟨{ id := db.nextId, name := d.name, slug := d.slug,
              description := d.description, createdAt := now }, ?_, rfl⟩
    rw [hl]
    simp

/-- Rerunning the loop on the same definitions after a successful run fails
on the first definition and changes nothing. -/
theorem seedCategoriesLoop_rerun (defs : List InsertCategory) (db : DB)
    (t1 t2 : Nat) (hne : defs ≠ [])
    (h : (seedCategoriesLoop db defs t1).2 = true) :
    seedCategoriesLoop (seedCategoriesLoop db defs t1).1 defs t2
      = ((seedCategoriesLoop db defs t1).1, false) := by
  obtain ⟨d, rest, rfl⟩ := List.exists_cons_of_ne_nil hne
  obtain ⟨c, hc, hcslug⟩ := seedCategoriesLoop_head_ok h
  exact seedCategoriesLoop_head_conflict
    (List.any_eq_true.mpr ⟨c, hc, by simp [hcslug]⟩)

/-- C7 fails on the code: running the category-seeding phase twice on the
empty database does not produce duplicate Category rows — the second run is
rejected by the unique slug constraint before inserting anything, leaving the
17 rows of the first run, all with distinct slugs. -/
theorem seedCategories_twice_no_duplicates :
    (seedAuthenticCatalogCategories
        (seedAuthenticCatalogCategories DB.empty 0).1 1).1.categories.length = 17
    ∧ ((seedAuthenticCatalogCategories
        (seedAuthenticCatalogCategories DB.empty 0).1 1).1.categories.map
          Category.slug).Nodup
    ∧ (seedAuthenticCatalogCategories DB.empty 0).2 = true
    ∧ (seedAuthenticCatalogCategories
        (seedAuthenticCatalogCategories DB.empty 0).1 1).2 = false := by
  refine ⟨by decide, by decide, by decide, by decide⟩

/-- C7 amended: each fixed category definition is attempted unconditionally
on every run (no idempotence guard), but after a successful run a second run
fails with a unique-constraint violation on its first category and leaves the
categories table unchanged — no duplicate rows are produced. -/
theorem seedCategories_rerun_fails (db : DB) (t1 t2 : Nat)
    (h : (seedAuthenticCatalogCategories db t1).2 = true) :
    seedAuthenticCatalogCategories (seedAuthenticCatalogCategories db t1).1 t2
      = ((seedAuthenticCatalogCategories db t1).1, false) :=
  seedCategoriesLoop_rerun categoriesData db t1 t2 (by simp [categoriesData]) h

/-- Witness for the amended C7, run from the empty database. -/
theorem seedCategories_rerun_fails_witness :
    seedAuthenticCatalogCategories (seedAuthenticCatalogCategories DB.empty 0).1 1
      = ((seedAuthenticCatalogCategories DB.empty 0).1, false) :=
  seedCategories_rerun_fails DB.empty 0 1 (by decide)

/-- One row of the `orders LEFT JOIN order_items LEFT JOIN products` result
set: the order, and the joined item/product when the join matched. -/
abbrev JoinRow : Type := Order × Option OrderItem × Option Product

/-- The `row.orderItem && row.product` pairing check: the enriched item of a
join row, absent when either side of the left join is null. -/
def rowToItem (r : JoinRow) : Option EnrichedOrderItem :=
  match r.2.1, r.2.2 with
  | some it, some pr => some { item := it, product := pr }
  | _, _ => none

/-- The slice of the left-join result set belonging to one order: one row per
matching order item (each with its left-joined product), or a single row with
null item/product when the order has no items. -/
def orderJoinRows (db : DB) (o : Order) : List JoinRow :=
  let its := db.orderItems.filter fun it => it.orderId == o.id
  if its.isEmpty then [(o, none, none)]
  else its.map fun it => (o, some it, db.products.find? fun pr => pr.id == it.productId)

/-- `getOrder`'s response shaping: `undefined` on an empty result set, else
the first row's order with the item/product pairs of all rows whose left join
matched. -/
def assembleOrder (rows : List JoinRow) : Option OrderWithItems :=
  match rows with
  | [] => none
  | r :: rest => some { order := r.1, orderItems := (r :: rest).filterMap rowToItem }

/-- `getOrder(id)`: left-join orders to order items to products, filtered to
one order id, then shape the response. -/
def getOrder (db : DB) (id : Nat) : Option OrderWithItems :=
  assembleOrder ((db.orders.filter fun o => o.id == id).flatMap (orderJoinRows db))

/-- One step of `getOrders`' grouping loop over the join rows: create the
order's entry (keyed by order id, insertion order preserved) if absent, then
append the row's item/product pair when the join matched. -/
def groupStep (acc : List OrderWithItems) (r : JoinRow) : List OrderWithItems :=
  if acc.any fun ow => ow.order.id == r.1.id then
    acc.map fun ow =>
      if ow.order.id == r.1.id then
        match rowToItem r with
        | some e => { ow with orderItems := ow.orderItems ++ [e] }
        | none => ow
      else ow
  else
    acc ++ [{ order := r.1, orderItems := (rowToItem r).toList }]

/-- `getOrders(userId)`: left-join the user's orders (newest first) to order
items to products, then group the rows by order id client-side. -/
def getOrders (db : DB) (userId : String) : List OrderWithItems :=
  ((sortDesc Order.createdAt (db.orders.filter fun o => o.userId == userId)).flatMap
    (orderJoinRows db)).foldl groupStep []

/-- Every join row of an order's slice carries that order. -/
theorem orderJoinRows_fst (db : DB) (x : Order) :
    ∀ r ∈ orderJoinRows db x, r.1 = x := by
  intro r hr
  unfold orderJoinRows at hr
  by_cases he : (db.orderItems.filter fun it => it.orderId == x.id).isEmpty = true
  · rw [if_pos he] at hr
    simp at hr
    rw [hr]
  · rw [if_neg he] at hr
    obtain ⟨it, _, rfl⟩ := List.mem_map.mp hr
    rfl

/-- An accumulated entry whose order id only meets item-less rows survives the
grouping fold unchanged. -/
theorem groupFold_preserve (rows : List JoinRow) (acc : List OrderWithItems)
    (ow : OrderWithItems)
    (hrows : ∀ r ∈ rows, r.1.id = ow.order.id → rowToItem r = none)
    (how : ow ∈ acc) :
    ow ∈ rows.foldl groupStep acc := by
  induction rows generalizing acc with
  | nil => simpa using how
  | cons r rest ih =>
      rw [List.foldl_cons]
      refine ih _ (fun r2 hr2 h2 => hrows r2 (List.mem_cons_of_mem r hr2) h2) ?_
      unfold groupStep
      by_cases hany : (acc.any fun ow2 => ow2.order.id == r.1.id) = true
      · rw [if_pos hany]
        have hfix : (if ow.order.id == r.1.id then
            match rowToItem r with
            | some e => { ow with orderItems := ow.orderItems ++ [e] }
            | none => ow
          else ow) = ow := by
          by_cases hid : (ow.order.id == r.1.id) = true
          · rw [if_pos hid]
            have : rowToItem r = none :=
              hrows r (List.mem_cons_self r rest) (by simp at hid; exact hid.symm)
            rw [this]
          · rw [if_neg hid]
        exact List.mem_map.mpr ⟨ow, how, hfix⟩
      · rw [if_neg hany]
        exact List.mem_append_left _ how

/-- The grouping step never changes an entry's order. -/
theorem groupStep_ids (acc : List OrderWithItems) (r : JoinRow)
    (ow2 : OrderWithItems) (h : ow2 ∈ groupStep acc r) :
    (∃ ow ∈ acc, ow2.order = ow.order) ∨ ow2.order = r.1 := by
  unfold groupStep at h
  by_cases hany : (acc.any fun ow => ow.order.id == r.1.id) = true
  · rw [if_pos hany] at h
    obtain ⟨ow, how, rfl⟩ := List.mem_map.mp h
    left
    refine ⟨ow, how, ?_⟩
    by_cases hid : (ow.order.id == r.1.id) = true
    · rw [if_pos hid]
      cases hit : rowToItem r <;> simp [hit]
    · rw [if_neg hid]
  · rw [if_neg hany] at h
    rcases List.mem_append.mp h with h | h
    · exact Or.inl ⟨ow2, h, rfl⟩
    · simp at h
      rw [h]
      exact Or.inr rfl

/-- If every row of the stream for an order id is that order's item-less row,
and no accumulated entry has that id yet, the fold emits the order with an
empty item list. -/
theorem groupFold_adds (o : Order) (rows : List JoinRow)
    (acc : List OrderWithItems)
    (hne : ∃ r ∈ rows, r.1.id = o.id)
    (hrows : ∀ r ∈ rows, r.1.id = o.id → r = (o, none, none))
    (hacc : ∀ ow ∈ acc, ow.order.id ≠ o.id) :
    ∃ ow ∈ rows.foldl groupStep acc, ow.order = o ∧ ow.orderItems = [] := by
  induction rows generalizing acc with
  | nil => simp at hne
  | cons r rest ih =>
      rw [List.foldl_cons]
      by_cases hr : r.1.id = o.id
      · have hro : r = (o, none, none) := hrows r (List.mem_cons_self r rest) hr
        have hany : (acc.any fun ow => ow.order.id == r.1.id) = false := by
          rw [List.any_eq_false]
          intro ow how
          have := hacc ow how
          simp [hro, this]
        have hstep : groupStep acc r = acc ++ [{ order := o, orderItems := [] }] := by
          unfold groupStep
          rw [if_neg (by simp [hany]), hro]
          rfl
        rw [hstep]
        refine ⟨{ order := o, orderItems := [] }, ?_, rfl, rfl⟩
        refine groupFold_preserve rest _ _ ?_ (by simp)
        intro r2 hr2 hid2
        rw [hrows r2 (List.mem_cons_of_mem r hr2) hid2]
        rfl
      · obtain ⟨r0, hr0, hr0id⟩ := hne
        have hr0rest : r0 ∈ rest := by
          rcases List.mem_cons.mp hr0 with h | h
          · exact absurd (h ▸ hr0id) hr
          · exact h
        refine ih _ ⟨r0, hr0rest, hr0id⟩
          (fun r2 hr2 h2 => hrows r2 (List.mem_cons_of_mem r hr2) h2) ?_
        intro ow2 how2
        rcases groupStep_ids acc r ow2 how2 with ⟨ow, how, heq⟩ | heq
        · rw [heq]; exact hacc ow how
        · rw [heq]; exact hr

/-- An order with no order items contributes a single null-joined row. -/
theorem orderJoinRows_empty (db : DB) (o : Order)
    (h : db.orderItems.filter (fun it => it.orderId == o.id) = []) :
    orderJoinRows db o = [(o, none, none)] := by
  simp only [orderJoinRows, h]
  rfl

/-- C5: for an order that exists but has zero OrderItems, `getOrder` returns
the order with an empty item list (not a not-found result), and the order
still appears in `getOrders` for its user, with an empty item list — null
join rows are dropped per-order while the order itself is kept. -/
theorem orders_zero_items (db : DB) (o : Order) (u : String)
    (h1 : o ∈ db.orders) (h2 : o.userId = u)
    (h3 : db.orderItems.filter (fun it => it.orderId == o.id) = [])
    (h4 : ∀ o2 ∈ db.orders, o2.id = o.id → o2 = o) :
    getOrder db o.id = some { order := o, orderItems := [] }
    ∧ ∃ ow ∈ getOrders db u, ow.order = o ∧ ow.orderItems = [] := by
  have hoj : orderJoinRows db o = [(o, none, none)] := orderJoinRows_empty db o h3
  constructor
  · have hallf : ∀ x ∈ db.orders.filter (fun o2 => o2.id == o.id), x = o := by
      intro x hx
      have hm := List.mem_filter.mp hx
      exact h4 x hm.1 (by simpa using hm.2)
    have hmemf : o ∈ db.orders.filter (fun o2 => o2.id == o.id) :=
      List.mem_filter.mpr ⟨h1, by simp⟩
    obtain ⟨y, t, hyt⟩ :=
      List.exists_cons_of_ne_nil (List.ne_nil_of_mem hmemf)
    have hy : y = o := hallf y (by rw [hyt]; exact List.mem_cons_self y t)
    have hrows : (db.orders.filter fun o2 => o2.id == o.id).flatMap (orderJoinRows db)
        = (o, none, none) :: t.flatMap (orderJoinRows db) := by
      rw [hyt, hy, List.flatMap_cons, hoj]
      rfl
    have hfm : (((o, none, none) : JoinRow) :: t.flatMap (orderJoinRows db)).filterMap
        rowToItem = [] := by
      rw [List.filterMap_eq_nil_iff]
      intro r hr
      rcases List.mem_cons.mp hr with hr | hr
      · rw [hr]; rfl
      · obtain ⟨x, hx, hrx⟩ := List.mem_flatMap.mp hr
        have hxo : x = o := hallf x (by rw [hyt]; exact List.mem_cons_of_mem y hx)
        rw [hxo, hoj] at hrx
        have : r = ((o, none, none) : JoinRow) := by simpa using hrx
        rw [this]
        rfl
    unfold getOrder
    rw [hrows]
    simp only [assembleOrder, hfm]
  · have hmemf2 : o ∈ db.orders.filter (fun o2 => o2.userId == u) :=
      List.mem_filter.mpr ⟨h1, by simp [h2]⟩
    have hmems : o ∈ sortDesc Order.createdAt (db.orders.filter fun o2 => o2.userId == u) :=
      (mem_sortDesc _ _ _).mpr hmemf2
    have hne : ∃ r ∈ (sortDesc Order.createdAt
        (db.orders.filter fun o2 => o2.userId == u)).flatMap (orderJoinRows db),
        r.1.id = o.id := by
      refine ⟨(o, none, none), ?_, rfl⟩
      exact List.mem_flatMap.mpr ⟨o, hmems, by rw [hoj]; exact List.mem_cons_self _ _⟩
    have hrows2 : ∀ r ∈ (sortDesc Order.createdAt
        (db.orders.filter fun o2 => o2.userId == u)).flatMap (orderJoinRows db),
        r.1.id = o.id → r = ((o, none, none) : JoinRow) := by
      intro r hr hid
      obtain ⟨x, hx, hrx⟩ := List.mem_flatMap.mp hr
      have hx1 : r.1 = x := orderJoinRows_fst db x r hrx
      have hxo : x = o := by
        refine h4 x (List.mem_filter.mp ((mem_sortDesc _ _ _).mp hx)).1 ?_
        rw [← hx1]
        exact hid
      rw [hxo, hoj] at hrx
      simpa using hrx
    unfold getOrders
    exact groupFold_adds o _ [] hne hrows2 (by simp)

/-- Witness for C5: a database holding one order of user "u1" and no order
items at all. -/
theorem orders_zero_items_witness :
    getOrder dbOrderEx 1 = some { order := orderEx, orderItems := [] }
    ∧ ∃ ow ∈ getOrders dbOrderEx "u1", ow.order = orderEx ∧ ow.orderItems = [] :=
  orders_zero_items dbOrderEx orderEx "u1" (by decide) (by decide) (by decide)
    (by decide)
